import Mathlib

/-!
Shallow embedding of the car-wash booking application (src/app.py).

The sqlite schema created by init_db becomes a record of relations
(`DB`), the seeded initial database becomes `seedDB`, and each mutating
route handler becomes a pure transaction `DB → Except Err DB`: a
successful commit returns the new database, every failure path (redirect,
flash-and-redirect, or an uncaught exception that prevents the commit)
returns an error and, by the transactional semantics of the source,
leaves the committed state unchanged.  Timestamps (now_str) are modelled
as abstract natural-number ticks supplied by the caller.
-/

inductive Role where
  | Customer
  | Staff
  | Admin
deriving DecidableEq

inductive BStatus where
  | Booked
  | InProgress
  | Completed
  | Cancelled
deriving DecidableEq

/-- users table. -/
structure User where
  userId : Nat
  fullName : String
  phone : String
  email : Option String
  passwordHash : String
  role : Role
  createdAt : Nat
deriving DecidableEq

/-- vehicles table. -/
structure Vehicle where
  vehicleId : Nat
  customerId : Nat
  plateNo : String
  make : Option String
  model : Option String
  color : Option String
  vehicleType : Option String
deriving DecidableEq

/-- packages table (price REAL is modelled as a rational). -/
structure Package where
  packageId : Nat
  packageName : String
  price : Rat
  durationMinutes : Int
  isActive : Bool
deriving DecidableEq

/-- service_stages table. -/
structure Stage where
  stageId : Nat
  stageName : String
  stageOrder : Nat
deriving DecidableEq

/-- bookings table. -/
structure Booking where
  bookingId : Nat
  customerId : Nat
  vehicleId : Nat
  packageId : Nat
  bookingDatetime : Nat
  scheduledDatetime : Option Nat
  status : BStatus
  currentStageId : Option Nat
  notes : Option String
deriving DecidableEq

/-- booking_stage_history table. -/
structure HistoryEntry where
  historyId : Nat
  bookingId : Nat
  stageId : Nat
  startTime : Nat
  endTime : Option Nat
  updatedByStaffId : Nat
deriving DecidableEq

/-- booking_staff_assignment table. -/
structure Assignment where
  bookingId : Nat
  staffId : Nat
  assignedAt : Nat
deriving DecidableEq

/-- payments table. -/
structure Payment where
  paymentId : Nat
  bookingId : Nat
  amount : Rat
  method : String
  paymentStatus : String
  paidAt : Option Nat
deriving DecidableEq

/-- The whole sqlite database, with AUTOINCREMENT counters made explicit. -/
structure DB where
  users : List User
  vehicles : List Vehicle
  packages : List Package
  stages : List Stage
  bookings : List Booking
  history : List HistoryEntry
  assignments : List Assignment
  payments : List Payment
  nextUserId : Nat
  nextVehicleId : Nat
  nextPackageId : Nat
  nextBookingId : Nat
  nextHistoryId : Nat
  nextPaymentId : Nat
deriving DecidableEq

/-- Outcomes of a request that does not commit a transaction. -/
inductive Err where
  | redirectLogin
  | passwordMismatch
  | bookingNotFound
  | invalidRole
  | integrityError
  | noneSubscript
deriving DecidableEq

/-- hash_password: sha256 hex digest, abstracted as an injective tagging. -/
def hash_password (pw : String) : String := "sha256:" ++ pw

def userExists (db : DB) (id : Nat) : Bool :=
  db.users.any (fun u => u.userId == id)

def vehicleExists (db : DB) (id : Nat) : Bool :=
  db.vehicles.any (fun v => v.vehicleId == id)

def packageExists (db : DB) (id : Nat) : Bool :=
  db.packages.any (fun p => p.packageId == id)

def bookingExists (db : DB) (id : Nat) : Bool :=
  db.bookings.any (fun b => b.bookingId == id)

def findBooking (db : DB) (id : Nat) : Option Booking :=
  db.bookings.find? (fun b => b.bookingId == id)

def findPackage (db : DB) (id : Nat) : Option Package :=
  db.packages.find? (fun p => p.packageId == id)

def findStage (stages : List Stage) (id : Nat) : Option Stage :=
  stages.find? (fun s => s.stageId == id)

def findPayment (db : DB) (bookingId : Nat) : Option Payment :=
  db.payments.find? (fun p => p.bookingId == bookingId)

def emailTaken (db : DB) (email : Option String) : Bool :=
  match email with
  | some e => db.users.any (fun u => u.email == some e)
  | none => false

/-- SELECT stage_id FROM service_stages ORDER BY stage_order LIMIT 1 -/
def firstStage : List Stage → Option Stage
  | [] => none
  | s :: rest =>
    match firstStage rest with
    | none => some s
    | some t => if t.stageOrder < s.stageOrder then some t else some s

/-- SELECT MAX(stage_order) FROM service_stages -/
def maxStageOrder (stages : List Stage) : Nat :=
  stages.foldl (fun m s => max m s.stageOrder) 0

/-- Seeded service stages (init_db). -/
def seedStages : List Stage :=
  [⟨1, "Washing", 1⟩, ⟨2, "Drying", 2⟩, ⟨3, "Polishing", 3⟩, ⟨4, "Completed", 4⟩]

/-- Seeded packages (init_db). -/
def seedPackages : List Package :=
  [⟨1, "Basic Wash", 500, 20, true⟩, ⟨2, "Standard Wash", 800, 35, true⟩,
   ⟨3, "Premium Wash", 1200, 50, true⟩]

/-- Seeded admin account (init_db). -/
def seedAdmin : User :=
  ⟨1, "Admin", "0300-0000000", some "admin@carwash.local",
   hash_password "admin123", Role.Admin, 0⟩

/-- The database produced by init_db on an empty file. -/
def seedDB : DB where
  users := [seedAdmin]
  vehicles := []
  packages := seedPackages
  stages := seedStages
  bookings := []
  history := []
  assignments := []
  payments := []
  nextUserId := 2
  nextVehicleId := 1
  nextPackageId := 4
  nextBookingId := 1
  nextHistoryId := 1
  nextPaymentId := 1

/-- /register route: creates a Customer account.  The password/confirm
check happens before any store access; phone and email uniqueness
violations raise sqlite3.IntegrityError, which the route catches and
flashes, committing nothing. -/
def register (db : DB) (fullName phone : String) (email : Option String)
    (password confirm : String) (now : Nat) : Except Err DB :=
  if password = confirm then
    if db.users.any (fun u => u.phone == phone) || emailTaken db email then
      Except.error Err.integrityError
    else
      Except.ok { db with
        users := db.users ++
          [⟨db.nextUserId, fullName, phone, email, hash_password password,
            Role.Customer, now⟩],
        nextUserId := db.nextUserId + 1 }
  else Except.error Err.passwordMismatch

/-- /customer/vehicle/add route: requires a Customer session; duplicate
plate (UNIQUE) raises IntegrityError which is caught and flashed. -/
def add_vehicle (db : DB) (uid : Nat) (role : Role) (plateNo : String)
    (make model color vtype : Option String) : Except Err DB :=
  if role = Role.Customer then
    if db.vehicles.any (fun v => v.plateNo == plateNo) || !(userExists db uid) then
      Except.error Err.integrityError
    else
      Except.ok { db with
        vehicles := db.vehicles ++
          [⟨db.nextVehicleId, uid, plateNo, make, model, color, vtype⟩],
        nextVehicleId := db.nextVehicleId + 1 }
  else Except.error Err.redirectLogin

/-- /customer/booking/create route.  Requires a Customer session; reads
the lowest-order stage (crashing on an empty stage table), inserts the
booking (foreign keys on customer, vehicle, package), inserts the first
open history entry attributed to user 1, reads the package price and
inserts the Unpaid payment row; all in one transaction committed at the
end.  No vehicle-ownership check is performed. -/
def create_booking (db : DB) (uid : Nat) (role : Role) (vehicleId packageId : Nat)
    (scheduled : Option Nat) (notes : Option String) (now : Nat) : Except Err DB :=
  if role = Role.Customer then
    match firstStage db.stages with
    | none => Except.error Err.noneSubscript
    | some fs =>
      if userExists db uid && vehicleExists db vehicleId && packageExists db packageId then
        if userExists db 1 then
          match findPackage db packageId with
          | none => Except.error Err.noneSubscript
          | some pkg =>
            if db.payments.any (fun p => p.bookingId == db.nextBookingId) then
              Except.error Err.integrityError
            else
              Except.ok { db with
                bookings := db.bookings ++
                  [⟨db.nextBookingId, uid, vehicleId, packageId, now, scheduled,
                    BStatus.Booked, some fs.stageId, notes⟩],
                history := db.history ++
                  [⟨db.nextHistoryId, db.nextBookingId, fs.stageId, now, none, 1⟩],
                payments := db.payments ++
                  [⟨db.nextPaymentId, db.nextBookingId, pkg.price, "Cash", "Unpaid", none⟩],
                nextBookingId := db.nextBookingId + 1,
                nextHistoryId := db.nextHistoryId + 1,
                nextPaymentId := db.nextPaymentId + 1 }
        else Except.error Err.integrityError
      else Except.error Err.integrityError
  else Except.error Err.redirectLogin

/-- The UPDATE closing every open history row of a booking for a given
stage (staff_update_stage, end_prev branch). -/
def closeOpen (hist : List HistoryEntry) (b c t : Nat) : List HistoryEntry :=
  hist.map (fun h =>
    if h.bookingId == b && h.stageId == c && h.endTime.isNone then
      { h with endTime := some t }
    else h)

/-- /staff/booking/id/stage route (AdvanceStage).  Requires a staff
session; a missing booking is flashed as not found; a missing new stage
makes fetchone() return None and the subscript raises TypeError before
the commit, rolling everything back.  On success the open entries of the
previous stage are closed when end_prev is set, the booking status is
derived from the new stage order versus MAX(stage_order), and a fresh
open history entry attributed to the acting session user is appended. -/
def staff_update_stage (db : DB) (uid : Nat) (role : Role) (bookingId newStageId : Nat)
    (endPrev : Bool) (now : Nat) : Except Err DB :=
  if role = Role.Staff ∨ role = Role.Admin then
    match findBooking db bookingId with
    | none => Except.error Err.bookingNotFound
    | some bk =>
      match findStage db.stages newStageId with
      | none => Except.error Err.noneSubscript
      | some st =>
        if userExists db uid then
          Except.ok { db with
            bookings := db.bookings.map (fun b =>
              if b.bookingId == bookingId then
                { b with
                  currentStageId := some newStageId,
                  status := if st.stageOrder = maxStageOrder db.stages then
                      BStatus.Completed
                    else BStatus.InProgress }
              else b),
            history :=
              (if endPrev then
                match bk.currentStageId with
                | some c => closeOpen db.history bookingId c now
                | none => db.history
              else db.history) ++
              [⟨db.nextHistoryId, bookingId, newStageId, now, none, uid⟩],
            nextHistoryId := db.nextHistoryId + 1 }
        else Except.error Err.integrityError
  else Except.error Err.redirectLogin

/-- One iteration of the staff_assign loop: the INSERT succeeds unless a
foreign key (booking or user) or the composite primary key fails, and
every IntegrityError is swallowed by the except clause. -/
def assignOne (db : DB) (bookingId sid now : Nat) : DB :=
  if bookingExists db bookingId && userExists db sid &&
      !(db.assignments.any (fun a => a.bookingId == bookingId && a.staffId == sid)) then
    { db with assignments := db.assignments ++ [⟨bookingId, sid, now⟩] }
  else db

/-- /staff/assign route (AssignStaff): requires a staff session, then
attempts each insert, swallowing IntegrityError, and always commits. -/
def staff_assign (db : DB) (uid : Nat) (role : Role) (bookingId : Nat)
    (staffIds : List Nat) (now : Nat) : Except Err DB :=
  if role = Role.Staff ∨ role = Role.Admin then
    Except.ok (staffIds.foldl (fun d sid => assignOne d bookingId sid now) db)
  else Except.error Err.redirectLogin

def validMethod (m : String) : Bool :=
  m == "Cash" || m == "Card" || m == "Online"

def validPayStatus (s : String) : Bool :=
  s == "Unpaid" || s == "Paid" || s == "Partial" || s == "Refunded"

/-- /staff/payment/id route (RecordPayment): requires a staff session;
UPDATE of the booking's payment row (a no-op when none exists); the
CHECK constraints on method and payment_status abort the transaction
when a row is actually updated with an invalid value. -/
def staff_update_payment (db : DB) (uid : Nat) (role : Role) (bookingId : Nat)
    (method status : String) (now : Nat) : Except Err DB :=
  if role = Role.Staff ∨ role = Role.Admin then
    if db.payments.any (fun p => p.bookingId == bookingId) &&
        !(validMethod method && validPayStatus status) then
      Except.error Err.integrityError
    else
      Except.ok { db with
        payments := db.payments.map (fun p =>
          if p.bookingId == bookingId then
            { p with
              method := method,
              paymentStatus := status,
              paidAt := if status = "Paid" then some now else none }
          else p) }
  else Except.error Err.redirectLogin

/-- /staff/user/create route: guarded by require_staff (Staff or Admin
session), validates the requested role string, then inserts; phone and
email uniqueness violations are caught and flashed. -/
def create_staff_user (db : DB) (uid : Nat) (role : Role) (fullName phone : String)
    (email : Option String) (newRole : String) (password : String) (now : Nat) :
    Except Err DB :=
  if role = Role.Staff ∨ role = Role.Admin then
    if newRole = "Staff" ∨ newRole = "Admin" then
      if db.users.any (fun u => u.phone == phone) || emailTaken db email then
        Except.error Err.integrityError
      else
        Except.ok { db with
          users := db.users ++
            [⟨db.nextUserId, fullName, phone, email, hash_password password,
              if newRole = "Admin" then Role.Admin else Role.Staff, now⟩],
          nextUserId := db.nextUserId + 1 }
    else Except.error Err.invalidRole
  else Except.error Err.redirectLogin

/-- /staff/package/create route. -/
def create_package (db : DB) (uid : Nat) (role : Role) (name : String)
    (price : Rat) (duration : Int) (active : Bool) : Except Err DB :=
  if role = Role.Staff ∨ role = Role.Admin then
    if db.packages.any (fun p => p.packageName == name) ∨ price < 0 ∨ duration ≤ 0 then
      Except.error Err.integrityError
    else
      Except.ok { db with
        packages := db.packages ++
          [⟨db.nextPackageId, name, price, duration, active⟩],
        nextPackageId := db.nextPackageId + 1 }
  else Except.error Err.redirectLogin

/-- /staff/package/id/toggle route. -/
def toggle_package (db : DB) (uid : Nat) (role : Role) (packageId : Nat) :
    Except Err DB :=
  if role = Role.Staff ∨ role = Role.Admin then
    Except.ok { db with
      packages := db.packages.map (fun p =>
        if p.packageId == packageId then { p with isActive := !p.isActive } else p) }
  else Except.error Err.redirectLogin

/-- One authenticated request against a mutating route. -/
inductive Op where
  | register (fullName phone : String) (email : Option String)
      (password confirm : String) (now : Nat)
  | addVehicle (uid : Nat) (role : Role) (plateNo : String)
      (make model color vtype : Option String)
  | createBooking (uid : Nat) (role : Role) (vehicleId packageId : Nat)
      (scheduled : Option Nat) (notes : Option String) (now : Nat)
  | advanceStage (uid : Nat) (role : Role) (bookingId newStageId : Nat)
      (endPrev : Bool) (now : Nat)
  | assignStaff (uid : Nat) (role : Role) (bookingId : Nat)
      (staffIds : List Nat) (now : Nat)
  | recordPayment (uid : Nat) (role : Role) (bookingId : Nat)
      (method status : String) (now : Nat)
  | createStaffUser (uid : Nat) (role : Role) (fullName phone : String)
      (email : Option String) (newRole : String) (password : String) (now : Nat)
  | createPackage (uid : Nat) (role : Role) (name : String)
      (price : Rat) (duration : Int) (active : Bool)
  | togglePackage (uid : Nat) (role : Role) (packageId : Nat)
deriving DecidableEq

def applyOp (op : Op) (db : DB) : Except Err DB :=
  match op with
  | Op.register fn ph em pw cf t => register db fn ph em pw cf t
  | Op.addVehicle uid role plate mk md cl vt => add_vehicle db uid role plate mk md cl vt
  | Op.createBooking uid role vId pId sched notes t =>
      create_booking db uid role vId pId sched notes t
  | Op.advanceStage uid role bId sId ep t => staff_update_stage db uid role bId sId ep t
  | Op.assignStaff uid role bId sids t => staff_assign db uid role bId sids t
  | Op.recordPayment uid role bId m s t => staff_update_payment db uid role bId m s t
  | Op.createStaffUser uid role fn ph em nr pw t =>
      create_staff_user db uid role fn ph em nr pw t
  | Op.createPackage uid role nm pr du ac => create_package db uid role nm pr du ac
  | Op.togglePackage uid role pId => toggle_package db uid role pId

/-- Committed state after a request: a failed request commits nothing. -/
def step (db : DB) (op : Op) : DB :=
  match applyOp op db with
  | Except.ok d => d
  | Except.error _ => db

/-- Committed state after a sequence of requests. -/
def run (db : DB) (ops : List Op) : DB :=
  ops.foldl step db

/-- Whether an operation is an AdvanceStage with close_previous unset. -/
def closesPrevB : Op → Bool
  | Op.advanceStage _ _ _ _ ep _ => ep
  | _ => true

/-! ## History-ledger invariants (spec section 8) -/

/-- History rows of one booking with end_time = null. -/
def openFor (hist : List HistoryEntry) (b : Nat) : List HistoryEntry :=
  hist.filter (fun h => h.bookingId == b && h.endTime.isNone)

/-- Status is Booked, InProgress or Completed. -/
def ActiveStatusP (s : BStatus) : Prop :=
  s = BStatus.Booked ∨ s = BStatus.InProgress ∨ s = BStatus.Completed

instance (s : BStatus) : Decidable (ActiveStatusP s) := by
  unfold ActiveStatusP; infer_instance

/-- The claimed open-history invariant: per booking at most one open
entry, and exactly one matching current_stage while the status is
Booked, InProgress or Completed. -/
def HistInv (db : DB) : Prop :=
  ∀ bk ∈ db.bookings,
    (openFor db.history bk.bookingId).length ≤ 1 ∧
    (ActiveStatusP bk.status →
      (openFor db.history bk.bookingId).length = 1 ∧
      ∀ h ∈ openFor db.history bk.bookingId, some h.stageId = bk.currentStageId)

/-- Inductive strengthening of `HistInv` over reachable states. -/
def StrongInv (db : DB) : Prop :=
  (∀ bk ∈ db.bookings,
    ActiveStatusP bk.status ∧
    (openFor db.history bk.bookingId).length = 1 ∧
    (∀ h ∈ openFor db.history bk.bookingId, some h.stageId = bk.currentStageId) ∧
    bk.bookingId < db.nextBookingId) ∧
  (∀ h ∈ db.history, h.bookingId < db.nextBookingId)

/-- Order of the stage a booking currently points at. -/
def currentOrder (stages : List Stage) (bk : Booking) : Option Nat :=
  bk.currentStageId.bind (fun c => (findStage stages c).map Stage.stageOrder)

/-- The claimed derived-status invariant: Completed iff the current
stage carries the maximal stage_order. -/
def StatusIffInv (db : DB) : Prop :=
  ∀ bk ∈ db.bookings,
    (bk.status = BStatus.Completed ↔
      currentOrder db.stages bk = some (maxStageOrder db.stages))

/-- Inductive strengthening of `StatusIffInv`: the stage table stays the
seeded one (no route writes service_stages). -/
def Inv4 (db : DB) : Prop :=
  db.stages = seedStages ∧ StatusIffInv db

/-! ## Generic list lemmas about the embedded store -/

theorem histInv_of_strong {db : DB} (h : StrongInv db) : HistInv db := by
  intro bk hmem
  obtain ⟨h1, _⟩ := h
  obtain ⟨_, hlen, hstg, _⟩ := h1 bk hmem
  exact ⟨le_of_eq hlen, fun _ => ⟨hlen, hstg⟩⟩

theorem strongInv_of_fields {db d : DB} (h : StrongInv db)
    (hb : d.bookings = db.bookings) (hh : d.history = db.history)
    (hn : d.nextBookingId = db.nextBookingId) : StrongInv d := by
  unfold StrongInv at *
  rw [hb, hh, hn]
  exact h

theorem inv4_of_fields {db d : DB} (h : Inv4 db)
    (hb : d.bookings = db.bookings) (hs : d.stages = db.stages) : Inv4 d := by
  unfold Inv4 StatusIffInv at *
  rw [hb, hs]
  exact h

theorem openFor_append (h1 h2 : List HistoryEntry) (b : Nat) :
    openFor (h1 ++ h2) b = openFor h1 b ++ openFor h2 b := by
  simp [openFor, List.filter_append]

/-- Closing a (booking, stage) pair keeps exactly the open entries that
are not that pair. -/
theorem openFor_closeOpen (hist : List HistoryEntry) (b c t b' : Nat) :
    openFor (closeOpen hist b c t) b' =
      (openFor hist b').filter (fun h => !(h.bookingId == b && h.stageId == c)) := by
  induction hist with
  | nil => rfl
  | cons x tl ih =>
    simp only [openFor, closeOpen] at ih ⊢
    rw [List.map_cons, List.filter_cons, List.filter_cons, ih]
    cases hoe : x.endTime with
    | some v => simp [hoe]
    | none =>
      by_cases hb : x.bookingId = b
      · by_cases hc : x.stageId = c
        · by_cases hbb : b = b'
          · simp [hoe, hb, hc, hbb]
          · simp [hoe, hb, hc, hbb]
        · by_cases hbb : b = b'
          · simp [hoe, hb, hc, hbb]
          · simp [hoe, hb, hc, hbb]
      · by_cases hb' : x.bookingId = b'
        · have hne : ¬(b' = b) := fun he => hb (hb'.trans he)
          simp [hoe, hb, hb', hne]
        · simp [hoe, hb, hb']

theorem openFor_closeOpen_other (hist : List HistoryEntry) (b c t b' : Nat)
    (hne : b' ≠ b) :
    openFor (closeOpen hist b c t) b' = openFor hist b' := by
  rw [openFor_closeOpen]
  apply List.filter_eq_self.mpr
  intro h hm
  have hpred := (List.mem_filter.mp hm).2
  simp only [Bool.and_eq_true, beq_iff_eq] at hpred
  simp [hpred.1, hne]

theorem closeOpen_bookingIds (hist : List HistoryEntry) (b c t : Nat) :
    ∀ h ∈ closeOpen hist b c t, ∃ h0 ∈ hist, h.bookingId = h0.bookingId := by
  intro h hm
  obtain ⟨h0, hh0, rfl⟩ := List.mem_map.mp hm
  refine ⟨h0, hh0, ?_⟩
  by_cases hcond : (h0.bookingId == b && h0.stageId == c && h0.endTime.isNone) = true
  · simp [hcond]
  · simp [hcond]

/-- find? after an in-place keyed update of a list. -/
theorem find?_map_update {α : Type} (key : α → Nat) (l : List α) (k : Nat)
    (g : α → α) (hg : ∀ x, key (g x) = key x) (a0 : α)
    (hf : l.find? (fun x => key x == k) = some a0) :
    (l.map (fun x => if key x == k then g x else x)).find? (fun x => key x == k)
      = some (g a0) := by
  induction l with
  | nil => simp at hf
  | cons a tl ih =>
    by_cases ha : key a = k
    · rw [List.find?_cons_of_pos _ (by simp [ha])] at hf
      injection hf with hf
      subst hf
      simp only [List.map_cons]
      rw [if_pos (by simp [ha])]
      exact List.find?_cons_of_pos _ (by simp [hg, ha])
    · rw [List.find?_cons_of_neg _ (by simp [ha])] at hf
      simp only [List.map_cons]
      rw [if_neg (by simp [ha])]
      rw [List.find?_cons_of_neg _ (by simp [hg, ha])]
      exact ih hf

/-- The ORDER BY stage_order LIMIT 1 row is a stage of minimal order. -/
theorem firstStage_mem_min (l : List Stage) (fs : Stage)
    (h : firstStage l = some fs) :
    fs ∈ l ∧ ∀ s ∈ l, fs.stageOrder ≤ s.stageOrder := by
  induction l generalizing fs with
  | nil => simp [firstStage] at h
  | cons a tl ih =>
    rw [firstStage] at h
    split at h
    · -- firstStage tl = none, so tl is empty
      next hrest =>
      injection h with h
      subst h
      have hnil : tl = [] := by
        cases tl with
        | nil => rfl
        | cons y ty =>
          rw [firstStage] at hrest
          split at hrest
          · cases hrest
          · split at hrest <;> cases hrest
      subst hnil
      refine ⟨by simp, ?_⟩
      intro s hs
      rcases List.mem_cons.mp hs with rfl | hs
      · exact le_rfl
      · simp at hs
    · next t hrest =>
      obtain ⟨htm, htmin⟩ := ih t hrest
      split at h
      · next hlt =>
        injection h with h
        subst h
        refine ⟨List.mem_cons_of_mem _ htm, ?_⟩
        intro s hs
        rcases List.mem_cons.mp hs with rfl | hs
        · exact le_of_lt hlt
        · exact htmin s hs
      · next hlt =>
        injection h with h
        subst h
        refine ⟨List.mem_cons_self _ _, ?_⟩
        intro s hs
        rcases List.mem_cons.mp hs with rfl | hs
        · exact le_rfl
        · exact le_trans (Nat.le_of_not_lt hlt) (htmin s hs)

theorem exists_of_find?_eq_some {α : Type} {p : α → Bool} {l : List α} {a : α}
    (h : l.find? p = some a) : a ∈ l ∧ p a = true :=
  ⟨List.mem_of_find?_eq_some h, List.find?_some h⟩

/-! ## Which relations each operation can touch -/

theorem register_ok_fields {db : DB} {fn ph : String} {em : Option String}
    {pw cf : String} {t : Nat} {d : DB}
    (h : register db fn ph em pw cf t = Except.ok d) :
    d.bookings = db.bookings ∧ d.history = db.history ∧
    d.nextBookingId = db.nextBookingId ∧ d.stages = db.stages := by
  unfold register at h
  split at h
  · split at h
    · cases h
    · injection h with h
      subst h
      exact ⟨rfl, rfl, rfl, rfl⟩
  · cases h

theorem add_vehicle_ok_fields {db : DB} {uid : Nat} {role : Role} {pl : String}
    {mk md cl vt : Option String} {d : DB}
    (h : add_vehicle db uid role pl mk md cl vt = Except.ok d) :
    d.bookings = db.bookings ∧ d.history = db.history ∧
    d.nextBookingId = db.nextBookingId ∧ d.stages = db.stages := by
  unfold add_vehicle at h
  split at h
  · split at h
    · cases h
    · injection h with h
      subst h
      exact ⟨rfl, rfl, rfl, rfl⟩
  · cases h

theorem assignOne_fields (d : DB) (b s t : Nat) :
    (assignOne d b s t).bookings = d.bookings ∧
    (assignOne d b s t).history = d.history ∧
    (assignOne d b s t).nextBookingId = d.nextBookingId ∧
    (assignOne d b s t).stages = d.stages := by
  unfold assignOne
  split
  · exact ⟨rfl, rfl, rfl, rfl⟩
  · exact ⟨rfl, rfl, rfl, rfl⟩

theorem assignFold_fields (sids : List Nat) (d : DB) (b t : Nat) :
    (sids.foldl (fun x sid => assignOne x b sid t) d).bookings = d.bookings ∧
    (sids.foldl (fun x sid => assignOne x b sid t) d).history = d.history ∧
    (sids.foldl (fun x sid => assignOne x b sid t) d).nextBookingId = d.nextBookingId ∧
    (sids.foldl (fun x sid => assignOne x b sid t) d).stages = d.stages := by
  induction sids generalizing d with
  | nil => exact ⟨rfl, rfl, rfl, rfl⟩
  | cons s rest ih =>
    simp only [List.foldl_cons]
    obtain ⟨h1, h2, h3, h4⟩ := assignOne_fields d b s t
    obtain ⟨g1, g2, g3, g4⟩ := ih (assignOne d b s t)
    exact ⟨g1.trans h1, g2.trans h2, g3.trans h3, g4.trans h4⟩

theorem staff_assign_ok_fields {db : DB} {uid : Nat} {role : Role} {b : Nat}
    {sids : List Nat} {t : Nat} {d : DB}
    (h : staff_assign db uid role b sids t = Except.ok d) :
    d.bookings = db.bookings ∧ d.history = db.history ∧
    d.nextBookingId = db.nextBookingId ∧ d.stages = db.stages := by
  unfold staff_assign at h
  split at h
  · injection h with h
    subst h
    exact assignFold_fields sids db b t
  · cases h

theorem staff_update_payment_ok_fields {db : DB} {uid : Nat} {role : Role}
    {b : Nat} {m s : String} {t : Nat} {d : DB}
    (h : staff_update_payment db uid role b m s t = Except.ok d) :
    d.bookings = db.bookings ∧ d.history = db.history ∧
    d.nextBookingId = db.nextBookingId ∧ d.stages = db.stages := by
  unfold staff_update_payment at h
  split at h
  · split at h
    · cases h
    · injection h with h
      subst h
      exact ⟨rfl, rfl, rfl, rfl⟩
  · cases h

theorem create_staff_user_ok_fields {db : DB} {uid : Nat} {role : Role}
    {fn ph : String} {em : Option String} {nr pw : String} {t : Nat} {d : DB}
    (h : create_staff_user db uid role fn ph em nr pw t = Except.ok d) :
    d.bookings = db.bookings ∧ d.history = db.history ∧
    d.nextBookingId = db.nextBookingId ∧ d.stages = db.stages := by
  unfold create_staff_user at h
  split at h
  · split at h
    · split at h
      · cases h
      · injection h with h
        subst h
        exact ⟨rfl, rfl, rfl, rfl⟩
    · cases h
  · cases h

theorem create_package_ok_fields {db : DB} {uid : Nat} {role : Role}
    {nm : String} {pr : Rat} {du : Int} {ac : Bool} {d : DB}
    (h : create_package db uid role nm pr du ac = Except.ok d) :
    d.bookings = db.bookings ∧ d.history = db.history ∧
    d.nextBookingId = db.nextBookingId ∧ d.stages = db.stages := by
  unfold create_package at h
  split at h
  · split at h
    · cases h
    · injection h with h
      subst h
      exact ⟨rfl, rfl, rfl, rfl⟩
  · cases h

theorem toggle_package_ok_fields {db : DB} {uid : Nat} {role : Role}
    {pId : Nat} {d : DB}
    (h : toggle_package db uid role pId = Except.ok d) :
    d.bookings = db.bookings ∧ d.history = db.history ∧
    d.nextBookingId = db.nextBookingId ∧ d.stages = db.stages := by
  unfold toggle_package at h
  split at h
  · injection h with h
    subst h
    exact ⟨rfl, rfl, rfl, rfl⟩
  · cases h

/-- No route ever writes the service_stages table. -/
theorem create_booking_ok_stages {db : DB} {uid : Nat} {role : Role}
    {vId pId : Nat} {sched : Option Nat} {notes : Option String} {t : Nat} {d : DB}
    (h : create_booking db uid role vId pId sched notes t = Except.ok d) :
    d.stages = db.stages := by
  unfold create_booking at h
  split at h
  · split at h
    · cases h
    · split at h
      · split at h
        · split at h
          · cases h
          · split at h
            · cases h
            · injection h with h
              subst h
              rfl
        · cases h
      · cases h
  · cases h

theorem staff_update_stage_ok_stages {db : DB} {uid : Nat} {role : Role}
    {bId sId : Nat} {ep : Bool} {t : Nat} {d : DB}
    (h : staff_update_stage db uid role bId sId ep t = Except.ok d) :
    d.stages = db.stages := by
  unfold staff_update_stage at h
  split at h
  · split at h
    · cases h
    · split at h
      · cases h
      · split at h
        · injection h with h
          subst h
          rfl
        · cases h
  · cases h

/-! ## Preservation of the open-history invariant -/

theorem activeStatus_derived (c : Prop) [Decidable c] :
    ActiveStatusP (if c then BStatus.Completed else BStatus.InProgress) := by
  split
  · exact Or.inr (Or.inr rfl)
  · exact Or.inr (Or.inl rfl)

theorem strong_step (db : DB) (op : Op) (h : StrongInv db)
    (hc : closesPrevB op = true) : StrongInv (step db op) := by
  cases op with
  | register fn ph em pw cf t =>
    cases hres : register db fn ph em pw cf t with
    | error e => simp only [step, applyOp, hres]; exact h
    | ok d =>
      simp only [step, applyOp, hres]
      obtain ⟨h1, h2, h3, _⟩ := register_ok_fields hres
      exact strongInv_of_fields h h1 h2 h3
  | addVehicle uid role pl mk md cl vt =>
    cases hres : add_vehicle db uid role pl mk md cl vt with
    | error e => simp only [step, applyOp, hres]; exact h
    | ok d =>
      simp only [step, applyOp, hres]
      obtain ⟨h1, h2, h3, _⟩ := add_vehicle_ok_fields hres
      exact strongInv_of_fields h h1 h2 h3
  | assignStaff uid role bId sids t =>
    cases hres : staff_assign db uid role bId sids t with
    | error e => simp only [step, applyOp, hres]; exact h
    | ok d =>
      simp only [step, applyOp, hres]
      obtain ⟨h1, h2, h3, _⟩ := staff_assign_ok_fields hres
      exact strongInv_of_fields h h1 h2 h3
  | recordPayment uid role bId m s t =>
    cases hres : staff_update_payment db uid role bId m s t with
    | error e => simp only [step, applyOp, hres]; exact h
    | ok d =>
      simp only [step, applyOp, hres]
      obtain ⟨h1, h2, h3, _⟩ := staff_update_payment_ok_fields hres
      exact strongInv_of_fields h h1 h2 h3
  | createStaffUser uid role fn ph em nr pw t =>
    cases hres : create_staff_user db uid role fn ph em nr pw t with
    | error e => simp only [step, applyOp, hres]; exact h
    | ok d =>
      simp only [step, applyOp, hres]
      obtain ⟨h1, h2, h3, _⟩ := create_staff_user_ok_fields hres
      exact strongInv_of_fields h h1 h2 h3
  | createPackage uid role nm pr du ac =>
    cases hres : create_package db uid role nm pr du ac with
    | error e => simp only [step, applyOp, hres]; exact h
    | ok d =>
      simp only [step, applyOp, hres]
      obtain ⟨h1, h2, h3, _⟩ := create_package_ok_fields hres
      exact strongInv_of_fields h h1 h2 h3
  | togglePackage uid role pId =>
    cases hres : toggle_package db uid role pId with
    | error e => simp only [step, applyOp, hres]; exact h
    | ok d =>
      simp only [step, applyOp, hres]
      obtain ⟨h1, h2, h3, _⟩ := toggle_package_ok_fields hres
      exact strongInv_of_fields h h1 h2 h3
  | createBooking uid role vId pId sched notes t =>
    cases hres : create_booking db uid role vId pId sched notes t with
    | error e => simp only [step, applyOp, hres]; exact h
    | ok d =>
      simp only [step, applyOp, hres]
      unfold create_booking at hres
      split at hres
      · split at hres
        · cases hres
        · rename_i fs hfs
          split at hres
          · split at hres
            · split at hres
              · cases hres
              · rename_i pkg hpkg
                split at hres
                · cases hres
                · injection hres with hres
                  subst hres
                  obtain ⟨hBk, hHist⟩ := h
                  constructor
                  · intro bk' hmem
                    rcases List.mem_append.mp hmem with hmem | hmem
                    · obtain ⟨hact0, hlen0, hstg0, hlt0⟩ := hBk bk' hmem
                      have hne : db.nextBookingId ≠ bk'.bookingId :=
                        Ne.symm (Nat.ne_of_lt hlt0)
                      have hopen : openFor (db.history ++
                          [⟨db.nextHistoryId, db.nextBookingId, fs.stageId, t, none, 1⟩])
                          bk'.bookingId = openFor db.history bk'.bookingId := by
                        rw [openFor_append]
                        simp [openFor, hne]
                      exact ⟨hact0, by rw [hopen]; exact hlen0,
                        by rw [hopen]; exact hstg0, Nat.lt_succ_of_lt hlt0⟩
                    · simp only [List.mem_singleton] at hmem
                      subst hmem
                      have hempty : openFor db.history db.nextBookingId = [] := by
                        unfold openFor
                        rw [List.filter_eq_nil_iff]
                        intro a ha
                        have := hHist a ha
                        simp [Nat.ne_of_lt this]
                      have hopen : openFor (db.history ++
                          [⟨db.nextHistoryId, db.nextBookingId, fs.stageId, t, none, 1⟩])
                          db.nextBookingId =
                          [⟨db.nextHistoryId, db.nextBookingId, fs.stageId, t, none, 1⟩] := by
                        rw [openFor_append, hempty]
                        simp [openFor]
                      refine ⟨Or.inl rfl, ?_, ?_, Nat.lt_succ_self _⟩
                      · rw [hopen]
                        rfl
                      · rw [hopen]
                        intro hh hhm
                        simp only [List.mem_singleton] at hhm
                        subst hhm
                        rfl
                  · intro hh hmem
                    rcases List.mem_append.mp hmem with hmem | hmem
                    · exact Nat.lt_succ_of_lt (hHist hh hmem)
                    · simp only [List.mem_singleton] at hmem
                      subst hmem
                      exact Nat.lt_succ_self _
            · cases hres
          · cases hres
      · cases hres
  | advanceStage uid role bId sId ep t =>
    have hep : ep = true := by simpa [closesPrevB] using hc
    subst hep
    cases hres : staff_update_stage db uid role bId sId true t with
    | error e => simp only [step, applyOp, hres]; exact h
    | ok d =>
      simp only [step, applyOp, hres]
      unfold staff_update_stage at hres
      split at hres
      · split at hres
        · cases hres
        · rename_i bk hfb
          split at hres
          · cases hres
          · rename_i st hst
            split at hres
            · injection hres with hres
              subst hres
              obtain ⟨hBk, hHist⟩ := h
              have hbkmem : bk ∈ db.bookings := List.mem_of_find?_eq_some hfb
              have hbid : bk.bookingId = bId := by
                have := List.find?_some hfb
                simpa using this
              obtain ⟨hact, hlen, hstg, hlt⟩ := hBk bk hbkmem
              obtain ⟨e, he⟩ := List.length_eq_one.mp hlen
              have hemem : e ∈ openFor db.history bk.bookingId := by
                rw [he]
                exact List.mem_singleton_self e
              have hcur : bk.currentStageId = some e.stageId := (hstg e hemem).symm
              have hemem2 : e ∈ db.history ∧
                  (e.bookingId == bk.bookingId && e.endTime.isNone) = true := by
                unfold openFor at hemem
                exact List.mem_filter.mp hemem
              have heb : e.bookingId = bk.bookingId := by
                have := hemem2.2
                simp only [Bool.and_eq_true, beq_iff_eq] at this
                exact this.1
              simp only [eq_self_iff_true, if_true, hcur]
              have hopenNew : openFor ((closeOpen db.history bId e.stageId t) ++
                  [⟨db.nextHistoryId, bId, sId, t, none, uid⟩]) bId =
                  [⟨db.nextHistoryId, bId, sId, t, none, uid⟩] := by
                rw [openFor_append, openFor_closeOpen]
                have h1 : openFor db.history bId = [e] := by rw [← hbid, he]
                rw [h1]
                simp [openFor, heb, hbid]
              constructor
              · intro bk' hmem'
                obtain ⟨b0, hb0, rfl⟩ := List.mem_map.mp hmem'
                obtain ⟨hact0, hlen0, hstg0, hlt0⟩ := hBk b0 hb0
                by_cases hb0id : b0.bookingId = bId
                · rw [if_pos (by simp [hb0id])]
                  refine ⟨activeStatus_derived _, ?_, ?_, ?_⟩
                  · show (openFor _ b0.bookingId).length = 1
                    rw [hb0id, hopenNew]
                    rfl
                  · show ∀ hh ∈ openFor _ b0.bookingId, _
                    rw [hb0id, hopenNew]
                    intro hh hhm
                    simp only [List.mem_singleton] at hhm
                    subst hhm
                    rfl
                  · exact hlt0
                · rw [if_neg (by simp [hb0id])]
                  have hopen2 : openFor ((closeOpen db.history bId e.stageId t) ++
                      [⟨db.nextHistoryId, bId, sId, t, none, uid⟩]) b0.bookingId =
                      openFor db.history b0.bookingId := by
                    rw [openFor_append, openFor_closeOpen_other _ _ _ _ _ hb0id]
                    simp [openFor, Ne.symm hb0id]
                  exact ⟨hact0, by rw [hopen2]; exact hlen0,
                    by rw [hopen2]; exact hstg0, hlt0⟩
              · intro hh hmem
                rcases List.mem_append.mp hmem with hmem | hmem
                · obtain ⟨h0, h0mem, heq⟩ := closeOpen_bookingIds _ _ _ _ hh hmem
                  rw [heq]
                  exact hHist h0 h0mem
                · simp only [List.mem_singleton] at hmem
                  subst hmem
                  show bId < db.nextBookingId
                  rw [← hbid]
                  exact hlt
            · cases hres
      · cases hres

theorem strong_seed : StrongInv seedDB := by
  constructor
  · intro bk hm
    simp [seedDB] at hm
  · intro hh hm
    simp [seedDB] at hm

theorem strong_run (ops : List Op) (db : DB) (h : StrongInv db)
    (hall : ∀ op ∈ ops, closesPrevB op = true) : StrongInv (run db ops) := by
  induction ops generalizing db with
  | nil => exact h
  | cons o rest ih =>
    simp only [run, List.foldl_cons]
    exact ih (step db o) (strong_step db o h (hall o (by simp)))
      (fun op hm => hall op (by simp [hm]))

/-! ## Preservation of the derived-status invariant -/

theorem inv4_step (db : DB) (op : Op) (h : Inv4 db) : Inv4 (step db op) := by
  cases op with
  | register fn ph em pw cf t =>
    cases hres : register db fn ph em pw cf t with
    | error e => simp only [step, applyOp, hres]; exact h
    | ok d =>
      simp only [step, applyOp, hres]
      obtain ⟨h1, _, _, h4⟩ := register_ok_fields hres
      exact inv4_of_fields h h1 h4
  | addVehicle uid role pl mk md cl vt =>
    cases hres : add_vehicle db uid role pl mk md cl vt with
    | error e => simp only [step, applyOp, hres]; exact h
    | ok d =>
      simp only [step, applyOp, hres]
      obtain ⟨h1, _, _, h4⟩ := add_vehicle_ok_fields hres
      exact inv4_of_fields h h1 h4
  | assignStaff uid role bId sids t =>
    cases hres : staff_assign db uid role bId sids t with
    | error e => simp only [step, applyOp, hres]; exact h
    | ok d =>
      simp only [step, applyOp, hres]
      obtain ⟨h1, _, _, h4⟩ := staff_assign_ok_fields hres
      exact inv4_of_fields h h1 h4
  | recordPayment uid role bId m s t =>
    cases hres : staff_update_payment db uid role bId m s t with
    | error e => simp only [step, applyOp, hres]; exact h
    | ok d =>
      simp only [step, applyOp, hres]
      obtain ⟨h1, _, _, h4⟩ := staff_update_payment_ok_fields hres
      exact inv4_of_fields h h1 h4
  | createStaffUser uid role fn ph em nr pw t =>
    cases hres : create_staff_user db uid role fn ph em nr pw t with
    | error e => simp only [step, applyOp, hres]; exact h
    | ok d =>
      simp only [step, applyOp, hres]
      obtain ⟨h1, _, _, h4⟩ := create_staff_user_ok_fields hres
      exact inv4_of_fields h h1 h4
  | createPackage uid role nm pr du ac =>
    cases hres : create_package db uid role nm pr du ac with
    | error e => simp only [step, applyOp, hres]; exact h
    | ok d =>
      simp only [step, applyOp, hres]
      obtain ⟨h1, _, _, h4⟩ := create_package_ok_fields hres
      exact inv4_of_fields h h1 h4
  | togglePackage uid role pId =>
    cases hres : toggle_package db uid role pId with
    | error e => simp only [step, applyOp, hres]; exact h
    | ok d =>
      simp only [step, applyOp, hres]
      obtain ⟨h1, _, _, h4⟩ := toggle_package_ok_fields hres
      exact inv4_of_fields h h1 h4
  | createBooking uid role vId pId sched notes t =>
    cases hres : create_booking db uid role vId pId sched notes t with
    | error e => simp only [step, applyOp, hres]; exact h
    | ok d =>
      simp only [step, applyOp, hres]
      unfold create_booking at hres
      split at hres
      · split at hres
        · cases hres
        · rename_i fs hfs
          split at hres
          · split at hres
            · split at hres
              · cases hres
              · rename_i pkg hpkg
                split at hres
                · cases hres
                · injection hres with hres
                  subst hres
                  obtain ⟨hstages, hSI⟩ := h
                  rw [hstages] at hfs
                  have hfsv : fs = ⟨1, "Washing", 1⟩ := by
                    simp [seedStages, firstStage] at hfs
                    exact hfs.symm
                  subst hfsv
                  refine ⟨hstages, ?_⟩
                  intro bk' hmem
                  rcases List.mem_append.mp hmem with hmem | hmem
                  · exact hSI bk' hmem
                  · simp only [List.mem_singleton] at hmem
                    subst hmem
                    show BStatus.Booked = BStatus.Completed ↔
                      currentOrder db.stages _ = some (maxStageOrder db.stages)
                    rw [hstages]
                    simp [currentOrder, findStage, seedStages, maxStageOrder]
            · cases hres
          · cases hres
      · cases hres
  | advanceStage uid role bId sId ep t =>
    cases hres : staff_update_stage db uid role bId sId ep t with
    | error e => simp only [step, applyOp, hres]; exact h
    | ok d =>
      simp only [step, applyOp, hres]
      unfold staff_update_stage at hres
      split at hres
      · split at hres
        · cases hres
        · rename_i bk hfb
          split at hres
          · cases hres
          · rename_i st hst
            split at hres
            · injection hres with hres
              subst hres
              obtain ⟨hstages, hSI⟩ := h
              refine ⟨hstages, ?_⟩
              intro bk' hmem'
              obtain ⟨b0, hb0, rfl⟩ := List.mem_map.mp hmem'
              by_cases hb0id : b0.bookingId = bId
              · rw [if_pos (by simp [hb0id])]
                show (if st.stageOrder = maxStageOrder db.stages then
                    BStatus.Completed else BStatus.InProgress) = BStatus.Completed ↔
                  currentOrder db.stages _ = some (maxStageOrder db.stages)
                have hco : currentOrder db.stages
                    { b0 with
                      currentStageId := some sId,
                      status := if st.stageOrder = maxStageOrder db.stages then
                          BStatus.Completed else BStatus.InProgress } =
                    some st.stageOrder := by
                  simp [currentOrder, hst]
                rw [hco]
                by_cases hmax : st.stageOrder = maxStageOrder db.stages
                · simp [hmax]
                · simp [hmax]
              · rw [if_neg (by simp [hb0id])]
                exact hSI b0 hb0
            · cases hres
      · cases hres

theorem inv4_seed : Inv4 seedDB := by
  constructor
  · rfl
  · intro bk hm
    simp [seedDB] at hm

theorem inv4_run (ops : List Op) (db : DB) (h : Inv4 db) : Inv4 (run db ops) := by
  induction ops generalizing db with
  | nil => exact h
  | cons o rest ih =>
    simp only [run, List.foldl_cons]
    exact ih (step db o) (inv4_step db o h)

/-! ## Concrete scenario data used to exercise the claims -/

instance histInvDecidable (db : DB) : Decidable (HistInv db) := by
  unfold HistInv
  infer_instance

instance statusIffInvDecidable (db : DB) : Decidable (StatusIffInv db) := by
  unfold StatusIffInv
  infer_instance

deriving instance DecidableEq for Except

def exceptOk : Except Err DB → Bool
  | Except.ok _ => true
  | Except.error _ => false

/-- A customer registers, adds a vehicle and creates a booking. -/
def opsBase : List Op :=
  [Op.register "Alice" "0301" none "pw" "pw" 10,
   Op.addVehicle 2 Role.Customer "ABC-1" none none none none,
   Op.createBooking 2 Role.Customer 1 1 none none 20]

def baseDB : DB := run seedDB opsBase

/-- An advance that leaves close_previous unset. -/
def c1BadOps : List Op := opsBase ++ [Op.advanceStage 1 Role.Admin 1 2 false 30]

/-- The same advance with close_previous set. -/
def c1GoodOps : List Op := opsBase ++ [Op.advanceStage 1 Role.Admin 1 2 true 30]

/-- C1 (counterexample): a single AdvanceStage with close_previous unset
leaves two open history entries for booking 1, so the claimed invariant
fails after a committed operation sequence that the claim quantifies
over ("with any values of close_previous"). -/
theorem c1_counterexample :
    bookingExists (run seedDB c1BadOps) 1 = true ∧
    (openFor (run seedDB c1BadOps).history 1).length = 2 ∧
    ¬ HistInv (run seedDB c1BadOps) := by decide

/-- C1 (amended): provided every AdvanceStage in the committed sequence
has close_previous set, then for every booking the number of history
rows with end_time = null is exactly 0 or 1, and whenever the booking's
status is Booked, InProgress or Completed it is exactly 1 and that open
entry's stage equals the booking's current_stage. -/
theorem c1_open_history_invariant (ops : List Op)
    (hall : ∀ op ∈ ops, closesPrevB op = true) :
    HistInv (run seedDB ops) :=
  histInv_of_strong (strong_run ops seedDB strong_seed hall)

theorem c1_open_history_invariant_witness :
    (∀ op ∈ c1GoodOps, closesPrevB op = true) ∧ HistInv (run seedDB c1GoodOps) :=
  ⟨by decide, c1_open_history_invariant c1GoodOps (by decide)⟩

/-- Drive booking 1 to the maximal stage (order 4). -/
def c4Ops1 : List Op := opsBase ++ [Op.advanceStage 1 Role.Admin 1 4 true 30]

/-- ... and then advance it back to stage 1. -/
def c4Ops2 : List Op := c4Ops1 ++ [Op.advanceStage 1 Role.Admin 1 1 true 40]

/-- C4 (counterexample): the booking is Completed after advancing to the
maximal-order stage, yet one further AdvanceStage to stage 1 puts it
back to InProgress — status does regress from Completed via
AdvanceStage. -/
theorem c4_counterexample :
    (findBooking (run seedDB c4Ops1) 1).map Booking.status = some BStatus.Completed ∧
    (findBooking (run seedDB c4Ops2) 1).map Booking.status = some BStatus.InProgress := by
  decide

/-- C4 (amended): after any committed operation sequence from the seeded
database, every booking satisfies status = Completed iff its current
stage carries the maximal stage_order; the no-regression half of the
claim is false (see the counterexample), since AdvanceStage to a
non-maximal stage recomputes the status to InProgress. -/
theorem c4_status_iff_max_order (ops : List Op) :
    StatusIffInv (run seedDB ops) :=
  (inv4_run ops seedDB inv4_seed).2

/-- Successful path of create_booking, spelled out. -/
theorem create_booking_ok (db : DB) (uid vId pId : Nat) (sched : Option Nat)
    (notes : Option String) (t : Nat) (fs : Stage) (pkg : Package)
    (hfs : firstStage db.stages = some fs)
    (hu : userExists db uid = true)
    (hv : vehicleExists db vId = true)
    (hpkg : findPackage db pId = some pkg)
    (hadmin : userExists db 1 = true)
    (hfresh : (db.payments.any fun p => p.bookingId == db.nextBookingId) = false) :
    create_booking db uid Role.Customer vId pId sched notes t = Except.ok
      { db with
        bookings := db.bookings ++
          [⟨db.nextBookingId, uid, vId, pId, t, sched, BStatus.Booked,
            some fs.stageId, notes⟩],
        history := db.history ++
          [⟨db.nextHistoryId, db.nextBookingId, fs.stageId, t, none, 1⟩],
        payments := db.payments ++
          [⟨db.nextPaymentId, db.nextBookingId, pkg.price, "Cash", "Unpaid", none⟩],
        nextBookingId := db.nextBookingId + 1,
        nextHistoryId := db.nextHistoryId + 1,
        nextPaymentId := db.nextPaymentId + 1 } := by
  have hpe : packageExists db pId = true := by
    unfold packageExists
    rw [List.any_eq_true]
    obtain ⟨hm, hp⟩ := exists_of_find?_eq_some hpkg
    exact ⟨pkg, hm, hp⟩
  unfold create_booking
  rw [if_pos rfl]
  simp only [hfs, hpkg, hu, hv, hpe, hadmin, hfresh, Bool.and_self,
    eq_self_iff_true, if_true, Bool.false_eq_true, if_false]

/-- Booking and vehicle created for a second customer Bob (user 3),
while vehicle 1 belongs to Alice (user 2). -/
def c2Ops : List Op :=
  [Op.register "Alice" "0301" none "pw" "pw" 10,
   Op.addVehicle 2 Role.Customer "ABC-1" none none none none,
   Op.register "Bob" "0302" none "pw" "pw" 12]

def c2db : DB := run seedDB c2Ops

/-- C2 (counterexample): vehicle 1 belongs to customer 2, yet customer 3
successfully creates a booking referencing it, and the booking row is
inserted — the engine performs no vehicle-ownership check. -/
theorem c2_counterexample :
    ((c2db.vehicles.find? (fun v => v.vehicleId == 1)).map Vehicle.customerId
      = some 2) ∧
    (2 : Nat) ≠ 3 ∧
    exceptOk (create_booking c2db 3 Role.Customer 1 1 none none 60) = true ∧
    (step c2db (Op.createBooking 3 Role.Customer 1 1 none none 60)).bookings.length
      = c2db.bookings.length + 1 := by decide

/-- C2 (amended): CreateBooking does not check vehicle ownership: when
the referenced vehicle exists but belongs to a different customer, the
operation still succeeds and inserts the booking (with the caller as its
customer); only the store's foreign keys constrain the vehicle id. -/
theorem c2_no_ownership_check (db : DB) (uid vId pId : Nat) (sched : Option Nat)
    (notes : Option String) (t : Nat) (fs : Stage) (pkg : Package) (v : Vehicle)
    (hfs : firstStage db.stages = some fs)
    (hu : userExists db uid = true)
    (hv : v ∈ db.vehicles) (hvid : v.vehicleId = vId)
    (hown : v.customerId ≠ uid)
    (hpkg : findPackage db pId = some pkg)
    (hadmin : userExists db 1 = true)
    (hfresh : (db.payments.any fun p => p.bookingId == db.nextBookingId) = false) :
    ∃ db', create_booking db uid Role.Customer vId pId sched notes t = Except.ok db' ∧
      (⟨db.nextBookingId, uid, vId, pId, t, sched, BStatus.Booked,
        some fs.stageId, notes⟩ : Booking) ∈ db'.bookings := by
  have hvex : vehicleExists db vId = true := by
    unfold vehicleExists
    rw [List.any_eq_true]
    exact ⟨v, hv, by simp [hvid]⟩
  refine ⟨_, create_booking_ok db uid vId pId sched notes t fs pkg
    hfs hu hvex hpkg hadmin hfresh, ?_⟩
  exact List.mem_append_right _ (List.mem_singleton_self _)

theorem c2_no_ownership_check_witness :
    firstStage c2db.stages = some ⟨1, "Washing", 1⟩ ∧
    userExists c2db 3 = true ∧
    (⟨1, 2, "ABC-1", none, none, none, none⟩ : Vehicle) ∈ c2db.vehicles ∧
    (⟨1, 2, "ABC-1", none, none, none, none⟩ : Vehicle).vehicleId = 1 ∧
    (⟨1, 2, "ABC-1", none, none, none, none⟩ : Vehicle).customerId ≠ 3 ∧
    findPackage c2db 1 = some ⟨1, "Basic Wash", 500, 20, true⟩ ∧
    userExists c2db 1 = true ∧
    (c2db.payments.any fun p => p.bookingId == c2db.nextBookingId) = false ∧
    (∃ db', create_booking c2db 3 Role.Customer 1 1 none none 60 = Except.ok db' ∧
      (⟨c2db.nextBookingId, 3, 1, 1, 60, none, BStatus.Booked,
        some (⟨1, "Washing", 1⟩ : Stage).stageId, none⟩ : Booking) ∈ db'.bookings) :=
  ⟨by decide, by decide, by decide, by decide, by decide, by decide, by decide,
   by decide,
   c2_no_ownership_check c2db 3 1 1 none none 60 ⟨1, "Washing", 1⟩
     ⟨1, "Basic Wash", 500, 20, true⟩ ⟨1, 2, "ABC-1", none, none, none, none⟩
     (by decide) (by decide) (by decide) (by decide) (by decide) (by decide)
     (by decide) (by decide)⟩

/-- C5: CreateBooking, as one atomic transaction, inserts the booking
with status Booked and the lowest-order stage as current stage, appends
a first open history entry with start = now and end = null, and creates
a Payment row at the package's current price with status Unpaid and
paid_at = null. -/
theorem c5_create_booking_effect (db : DB) (uid vId pId : Nat) (sched : Option Nat)
    (notes : Option String) (t : Nat) (fs : Stage) (pkg : Package)
    (hfs : firstStage db.stages = some fs)
    (hu : userExists db uid = true)
    (hv : vehicleExists db vId = true)
    (hpkg : findPackage db pId = some pkg)
    (hadmin : userExists db 1 = true)
    (hfresh : (db.payments.any fun p => p.bookingId == db.nextBookingId) = false) :
    ∃ db', create_booking db uid Role.Customer vId pId sched notes t = Except.ok db' ∧
      db'.bookings = db.bookings ++
        [⟨db.nextBookingId, uid, vId, pId, t, sched, BStatus.Booked,
          some fs.stageId, notes⟩] ∧
      db'.history = db.history ++
        [⟨db.nextHistoryId, db.nextBookingId, fs.stageId, t, none, 1⟩] ∧
      db'.payments = db.payments ++
        [⟨db.nextPaymentId, db.nextBookingId, pkg.price, "Cash", "Unpaid", none⟩] ∧
      fs ∈ db.stages ∧ (∀ s ∈ db.stages, fs.stageOrder ≤ s.stageOrder) := by
  refine ⟨_, create_booking_ok db uid vId pId sched notes t fs pkg
    hfs hu hv hpkg hadmin hfresh, rfl, rfl, rfl, ?_, ?_⟩
  · exact (firstStage_mem_min db.stages fs hfs).1
  · exact (firstStage_mem_min db.stages fs hfs).2

/-- Alice (user 2) with vehicle 1, about to book package 2 priced 800. -/
def c5Ops : List Op :=
  [Op.register "Alice" "0301" none "pw" "pw" 10,
   Op.addVehicle 2 Role.Customer "ABC-1" none none none none]

def c5db : DB := run seedDB c5Ops

theorem c5_create_booking_effect_witness :
    firstStage c5db.stages = some ⟨1, "Washing", 1⟩ ∧
    userExists c5db 2 = true ∧
    vehicleExists c5db 1 = true ∧
    findPackage c5db 2 = some ⟨2, "Standard Wash", 800, 35, true⟩ ∧
    userExists c5db 1 = true ∧
    (c5db.payments.any fun p => p.bookingId == c5db.nextBookingId) = false ∧
    (∃ db', create_booking c5db 2 Role.Customer 1 2 none none 20 = Except.ok db' ∧
      db'.bookings = c5db.bookings ++
        [⟨c5db.nextBookingId, 2, 1, 2, 20, none, BStatus.Booked,
          some (⟨1, "Washing", 1⟩ : Stage).stageId, none⟩] ∧
      db'.history = c5db.history ++
        [⟨c5db.nextHistoryId, c5db.nextBookingId,
          (⟨1, "Washing", 1⟩ : Stage).stageId, 20, none, 1⟩] ∧
      db'.payments = c5db.payments ++
        [⟨c5db.nextPaymentId, c5db.nextBookingId,
          (⟨2, "Standard Wash", 800, 35, true⟩ : Package).price,
          "Cash", "Unpaid", none⟩] ∧
      (⟨1, "Washing", 1⟩ : Stage) ∈ c5db.stages ∧
      (∀ s ∈ c5db.stages, (⟨1, "Washing", 1⟩ : Stage).stageOrder ≤ s.stageOrder)) :=
  ⟨by decide, by decide, by decide, by decide, by decide, by decide,
   c5_create_booking_effect c5db 2 1 2 none none 20 ⟨1, "Washing", 1⟩
     ⟨2, "Standard Wash", 800, 35, true⟩
     (by decide) (by decide) (by decide) (by decide) (by decide) (by decide)⟩

/-- C3: AdvanceStage on an existing booking and existing new stage sets
the status to Completed exactly when the new stage's order equals the
maximum stage order (else InProgress), points current_stage at the new
stage, and appends a fresh history entry for the new stage with
start = now, end = null, attributed to the acting staff member. -/
theorem c3_advance_stage_effect (db : DB) (uid : Nat) (role : Role)
    (bId sId : Nat) (ep : Bool) (t : Nat) (bk : Booking) (st : Stage)
    (hrole : role = Role.Staff ∨ role = Role.Admin)
    (hbk : findBooking db bId = some bk)
    (hst : findStage db.stages sId = some st)
    (huid : userExists db uid = true) :
    ∃ db', staff_update_stage db uid role bId sId ep t = Except.ok db' ∧
      findBooking db' bId = some
        { bk with
          currentStageId := some sId,
          status := if st.stageOrder = maxStageOrder db.stages then
              BStatus.Completed else BStatus.InProgress } ∧
      db'.history =
        (if ep then
          match bk.currentStageId with
          | some c => closeOpen db.history bId c t
          | none => db.history
        else db.history) ++
        [⟨db.nextHistoryId, bId, sId, t, none, uid⟩] := by
  have hmain : staff_update_stage db uid role bId sId ep t = Except.ok
      { db with
        bookings := db.bookings.map (fun b =>
          if b.bookingId == bId then
            { b with
              currentStageId := some sId,
              status := if st.stageOrder = maxStageOrder db.stages then
                  BStatus.Completed else BStatus.InProgress }
          else b),
        history :=
          (if ep then
            match bk.currentStageId with
            | some c => closeOpen db.history bId c t
            | none => db.history
          else db.history) ++
          [⟨db.nextHistoryId, bId, sId, t, none, uid⟩],
        nextHistoryId := db.nextHistoryId + 1 } := by
    unfold staff_update_stage
    rw [if_pos hrole]
    simp only [hbk, hst, huid, eq_self_iff_true, if_true]
  refine ⟨_, hmain, ?_, rfl⟩
  exact find?_map_update Booking.bookingId db.bookings bId
    (fun b =>
      { b with
        currentStageId := some sId,
        status := if st.stageOrder = maxStageOrder db.stages then
            BStatus.Completed else BStatus.InProgress })
    (fun x => rfl) bk hbk

theorem c3_advance_stage_effect_witness :
    (Role.Admin = Role.Staff ∨ Role.Admin = Role.Admin) ∧
    findBooking baseDB 1 =
      some ⟨1, 2, 1, 1, 20, none, BStatus.Booked, some 1, none⟩ ∧
    findStage baseDB.stages 2 = some ⟨2, "Drying", 2⟩ ∧
    userExists baseDB 1 = true ∧
    (∃ db', staff_update_stage baseDB 1 Role.Admin 1 2 true 30 = Except.ok db' ∧
      findBooking db' 1 = some
        { (⟨1, 2, 1, 1, 20, none, BStatus.Booked, some 1, none⟩ : Booking) with
          currentStageId := some 2,
          status := if (⟨2, "Drying", 2⟩ : Stage).stageOrder =
              maxStageOrder baseDB.stages then
              BStatus.Completed else BStatus.InProgress } ∧
      db'.history =
        (if true then
          match (⟨1, 2, 1, 1, 20, none, BStatus.Booked, some 1, none⟩ :
              Booking).currentStageId with
          | some c => closeOpen baseDB.history 1 c 30
          | none => baseDB.history
        else baseDB.history) ++
        [⟨baseDB.nextHistoryId, 1, 2, 30, none, 1⟩]) :=
  ⟨Or.inr rfl, by decide, by decide, by decide,
   c3_advance_stage_effect baseDB 1 Role.Admin 1 2 true 30
     ⟨1, 2, 1, 1, 20, none, BStatus.Booked, some 1, none⟩ ⟨2, "Drying", 2⟩
     (Or.inr rfl) (by decide) (by decide) (by decide)⟩

/-- C6 (counterexample): with booking 1 present and no stage 99, the
stage-advance request does fail and commits nothing, but the failure is
the uncaught subscript error from fetchone(), not the handled NotFound
path used for missing bookings. -/
theorem c6_counterexample :
    bookingExists baseDB 1 = true ∧
    findStage baseDB.stages 99 = none ∧
    staff_update_stage baseDB 1 Role.Admin 1 99 true 70 =
      Except.error Err.noneSubscript ∧
    Err.noneSubscript ≠ Err.bookingNotFound := by decide

/-- C6 (amended): when new_stage_id resolves to no stage, AdvanceStage
fails — with an uncaught error (the None-subscript crash), not a handled
NotFound — and performs no committed writes: the transaction never
commits, so no history entry is closed or appended and the booking's
current_stage and status are unchanged. -/
theorem c6_missing_stage_no_commit (db : DB) (uid : Nat) (role : Role)
    (bId sId : Nat) (ep : Bool) (t : Nat) (bk : Booking)
    (hrole : role = Role.Staff ∨ role = Role.Admin)
    (hbk : findBooking db bId = some bk)
    (hst : findStage db.stages sId = none) :
    staff_update_stage db uid role bId sId ep t = Except.error Err.noneSubscript ∧
    step db (Op.advanceStage uid role bId sId ep t) = db := by
  have h1 : staff_update_stage db uid role bId sId ep t =
      Except.error Err.noneSubscript := by
    unfold staff_update_stage
    rw [if_pos hrole]
    simp only [hbk, hst]
  exact ⟨h1, by simp only [step, applyOp, h1]⟩

theorem c6_missing_stage_no_commit_witness :
    (Role.Admin = Role.Staff ∨ Role.Admin = Role.Admin) ∧
    findBooking baseDB 1 =
      some ⟨1, 2, 1, 1, 20, none, BStatus.Booked, some 1, none⟩ ∧
    findStage baseDB.stages 99 = none ∧
    (staff_update_stage baseDB 1 Role.Admin 1 99 true 70 =
        Except.error Err.noneSubscript ∧
      step baseDB (Op.advanceStage 1 Role.Admin 1 99 true 70) = baseDB) :=
  ⟨Or.inr rfl, by decide, by decide,
   c6_missing_stage_no_commit baseDB 1 Role.Admin 1 99 true 70
     ⟨1, 2, 1, 1, 20, none, BStatus.Booked, some 1, none⟩
     (Or.inr rfl) (by decide) (by decide)⟩

/-- C7 (counterexample): staff id 99 does not exist, yet the batch
[99, 1] neither fails nor is rolled back: the call succeeds and the
valid pair (1, 1) is persisted — the foreign-key IntegrityError for 99
is swallowed exactly like a duplicate. -/
theorem c7_counterexample :
    userExists baseDB 99 = false ∧
    bookingExists baseDB 1 = true ∧
    userExists baseDB 1 = true ∧
    exceptOk (staff_assign baseDB 1 Role.Admin 1 [99, 1] 80) = true ∧
    (step baseDB (Op.assignStaff 1 Role.Admin 1 [99, 1] 80)).assignments =
      baseDB.assignments ++ [⟨1, 1, 80⟩] := by decide

/-- C7 (amended): AssignStaff never fails the batch: for a staff caller
it always commits, folding the per-id inserts; an id that resolves to no
user is silently skipped (its insert is a no-op), while the remaining
ids of the batch are still processed. -/
theorem c7_invalid_ids_skipped (db : DB) (uid : Nat) (role : Role) (bId : Nat)
    (sids : List Nat) (t : Nat)
    (hrole : role = Role.Staff ∨ role = Role.Admin) :
    staff_assign db uid role bId sids t =
      Except.ok (sids.foldl (fun d sid => assignOne d bId sid t) db) ∧
    ∀ (d : DB) (sid : Nat), userExists d sid = false → assignOne d bId sid t = d := by
  constructor
  · unfold staff_assign
    rw [if_pos hrole]
  · intro d sid hs
    unfold assignOne
    rw [if_neg (by simp [hs])]

theorem c7_invalid_ids_skipped_witness :
    (Role.Admin = Role.Staff ∨ Role.Admin = Role.Admin) ∧
    (staff_assign baseDB 1 Role.Admin 1 [99, 1] 80 =
        Except.ok ([99, 1].foldl (fun d sid => assignOne d 1 sid 80) baseDB) ∧
      ∀ (d : DB) (sid : Nat), userExists d sid = false → assignOne d 1 sid 80 = d) :=
  ⟨Or.inr rfl, c7_invalid_ids_skipped baseDB 1 Role.Admin 1 [99, 1] 80 (Or.inr rfl)⟩

/-- C8: AssignStaff is idempotent per (booking, staff) pair: starting
from a state respecting the composite primary key (at most one row per
pair), assigning an existing staff user to an existing booking twice
succeeds both times, the second call changes nothing, and exactly one
Assignment row for the pair remains. -/
theorem c8_assign_idempotent (db : DB) (uid uid2 : Nat) (role role2 : Role)
    (bId s t t2 : Nat)
    (hrole : role = Role.Staff ∨ role = Role.Admin)
    (hrole2 : role2 = Role.Staff ∨ role2 = Role.Admin)
    (hbk : bookingExists db bId = true)
    (hs : userExists db s = true)
    (hcount : (db.assignments.filter
      (fun a => a.bookingId == bId && a.staffId == s)).length ≤ 1) :
    ∃ db1 db2, staff_assign db uid role bId [s] t = Except.ok db1 ∧
      staff_assign db1 uid2 role2 bId [s] t2 = Except.ok db2 ∧
      db2 = db1 ∧
      (db1.assignments.filter
        (fun a => a.bookingId == bId && a.staffId == s)).length = 1 := by
  have h1 : staff_assign db uid role bId [s] t = Except.ok (assignOne db bId s t) := by
    unfold staff_assign
    rw [if_pos hrole]
    rfl
  have h2 : staff_assign (assignOne db bId s t) uid2 role2 bId [s] t2 =
      Except.ok (assignOne (assignOne db bId s t) bId s t2) := by
    unfold staff_assign
    rw [if_pos hrole2]
    rfl
  refine ⟨assignOne db bId s t, assignOne (assignOne db bId s t) bId s t2,
    h1, h2, ?_, ?_⟩
  · -- second application is a no-op
    by_cases hAss : (db.assignments.any
        (fun a => a.bookingId == bId && a.staffId == s)) = true
    · have hnoop : assignOne db bId s t = db := by
        unfold assignOne
        rw [if_neg (by simp [hAss])]
      rw [hnoop]
      unfold assignOne
      rw [if_neg (by simp [hAss])]
    · have hgrow : assignOne db bId s t =
          { db with assignments := db.assignments ++ [⟨bId, s, t⟩] } := by
        unfold assignOne
        rw [if_pos (by simp_all)]
      rw [hgrow]
      unfold assignOne
      rw [if_neg ?_]
      simp only [Bool.and_eq_true, Bool.not_eq_true', List.any_eq_false]
      intro hcond
      have := hcond.2 ⟨bId, s, t⟩ (by simp)
      simp at this
  · -- exactly one row for the pair
    by_cases hAss : (db.assignments.any
        (fun a => a.bookingId == bId && a.staffId == s)) = true
    · have hnoop : assignOne db bId s t = db := by
        unfold assignOne
        rw [if_neg (by simp [hAss])]
      rw [hnoop]
      obtain ⟨a, ham, hap⟩ := List.any_eq_true.mp hAss
      have hone : 1 ≤ (db.assignments.filter
          (fun x => x.bookingId == bId && x.staffId == s)).length := by
        have hmem : a ∈ db.assignments.filter
            (fun x => x.bookingId == bId && x.staffId == s) :=
          List.mem_filter.mpr ⟨ham, hap⟩
        exact List.length_pos.mpr (List.ne_nil_of_mem hmem)
      exact Nat.le_antisymm hcount hone
    · have hgrow : assignOne db bId s t =
          { db with assignments := db.assignments ++ [⟨bId, s, t⟩] } := by
        unfold assignOne
        rw [if_pos (by simp_all)]
      rw [hgrow]
      have hempty : db.assignments.filter
          (fun a => a.bookingId == bId && a.staffId == s) = [] := by
        rw [List.filter_eq_nil_iff]
        intro a ham hap
        exact hAss (List.any_eq_true.mpr ⟨a, ham, hap⟩)
      show (List.filter _ (db.assignments ++ [⟨bId, s, t⟩])).length = 1
      rw [List.filter_append, hempty]
      simp

theorem c8_assign_idempotent_witness :
    (Role.Admin = Role.Staff ∨ Role.Admin = Role.Admin) ∧
    (Role.Admin = Role.Staff ∨ Role.Admin = Role.Admin) ∧
    bookingExists baseDB 1 = true ∧
    userExists baseDB 1 = true ∧
    (baseDB.assignments.filter
      (fun a => a.bookingId == 1 && a.staffId == 1)).length ≤ 1 ∧
    (∃ db1 db2, staff_assign baseDB 1 Role.Admin 1 [1] 80 = Except.ok db1 ∧
      staff_assign db1 1 Role.Admin 1 [1] 81 = Except.ok db2 ∧
      db2 = db1 ∧
      (db1.assignments.filter
        (fun a => a.bookingId == 1 && a.staffId == 1)).length = 1) :=
  ⟨Or.inr rfl, Or.inr rfl, by decide, by decide, by decide,
   c8_assign_idempotent baseDB 1 1 Role.Admin Role.Admin 1 1 80 81
     (Or.inr rfl) (Or.inr rfl) (by decide) (by decide) (by decide)⟩

/-- C9: RecordPayment on a booking that has a payment row overwrites
method and payment_status with the given (enum-valid) values, sets
paid_at to now exactly when the new status is Paid and clears it to null
otherwise, and leaves the amount unchanged. -/
theorem c9_record_payment_effect (db : DB) (uid : Nat) (role : Role)
    (bId : Nat) (method status : String) (t : Nat) (p : Payment)
    (hrole : role = Role.Staff ∨ role = Role.Admin)
    (hp : findPayment db bId = some p)
    (hm : validMethod method = true)
    (hs : validPayStatus status = true) :
    ∃ db', staff_update_payment db uid role bId method status t = Except.ok db' ∧
      findPayment db' bId = some
        { p with
          method := method,
          paymentStatus := status,
          paidAt := if status = "Paid" then some t else none } ∧
      (findPayment db' bId).map Payment.amount = some p.amount := by
  have hmain : staff_update_payment db uid role bId method status t = Except.ok
      { db with
        payments := db.payments.map (fun q =>
          if q.bookingId == bId then
            { q with
              method := method,
              paymentStatus := status,
              paidAt := if status = "Paid" then some t else none }
          else q) } := by
    unfold staff_update_payment
    rw [if_pos hrole]
    rw [if_neg (by simp [hm, hs])]
  have hfind : findPayment
      { db with
        payments := db.payments.map (fun q =>
          if q.bookingId == bId then
            { q with
              method := method,
              paymentStatus := status,
              paidAt := if status = "Paid" then some t else none }
          else q) } bId = some
        { p with
          method := method,
          paymentStatus := status,
          paidAt := if status = "Paid" then some t else none } := by
    exact find?_map_update Payment.bookingId db.payments bId
      (fun q =>
        { q with
          method := method,
          paymentStatus := status,
          paidAt := if status = "Paid" then some t else none })
      (fun x => rfl) p hp
  refine ⟨_, hmain, hfind, ?_⟩
  rw [hfind]
  rfl

theorem c9_record_payment_effect_witness :
    (Role.Admin = Role.Staff ∨ Role.Admin = Role.Admin) ∧
    findPayment baseDB 1 = some ⟨1, 1, 500, "Cash", "Unpaid", none⟩ ∧
    validMethod "Card" = true ∧
    validPayStatus "Paid" = true ∧
    (∃ db', staff_update_payment baseDB 1 Role.Admin 1 "Card" "Paid" 90 =
        Except.ok db' ∧
      findPayment db' 1 = some
        { (⟨1, 1, 500, "Cash", "Unpaid", none⟩ : Payment) with
          method := "Card",
          paymentStatus := "Paid",
          paidAt := if ("Paid" : String) = "Paid" then some 90 else none } ∧
      (findPayment db' 1).map Payment.amount =
        some (⟨1, 1, 500, "Cash", "Unpaid", none⟩ : Payment).amount) :=
  ⟨Or.inr rfl, by decide, by decide, by decide,
   c9_record_payment_effect baseDB 1 Role.Admin 1 "Card" "Paid" 90
     ⟨1, 1, 500, "Cash", "Unpaid", none⟩
     (Or.inr rfl) (by decide) (by decide) (by decide)⟩

/-- Admin creates a Staff account for Sam (user 2). -/
def c10db : DB :=
  step seedDB (Op.createStaffUser 1 Role.Admin "Sam" "0310" none "Staff" "pw" 15)

/-- C10 (counterexample): user 2 has role Staff, not Admin, yet their
staff-user-creation request succeeds and inserts a new user row — the
guard only requires a Staff-or-Admin session. -/
theorem c10_counterexample :
    ((c10db.users.find? (fun u => u.userId == 2)).map User.role =
      some Role.Staff) ∧
    Role.Staff ≠ Role.Admin ∧
    exceptOk (create_staff_user c10db 2 Role.Staff "Eve" "0311" none "Staff"
      "pw" 90) = true ∧
    (step c10db (Op.createStaffUser 2 Role.Staff "Eve" "0311" none "Staff"
      "pw" 90)).users.length = c10db.users.length + 1 := by decide

/-- C10 (amended): staff-user creation is guarded by require_staff, so
any Staff or Admin caller may create Staff/Admin users (see the
counterexample); a caller whose role is Customer is redirected to login
and no user row is created. -/
theorem c10_customer_cannot_create_staff (db : DB) (uid : Nat) (fn ph : String)
    (em : Option String) (nr pw : String) (t : Nat) :
    create_staff_user db uid Role.Customer fn ph em nr pw t =
      Except.error Err.redirectLogin ∧
    step db (Op.createStaffUser uid Role.Customer fn ph em nr pw t) = db := by
  have h1 : create_staff_user db uid Role.Customer fn ph em nr pw t =
      Except.error Err.redirectLogin := by
    unfold create_staff_user
    rw [if_neg (by simp)]
  exact ⟨h1, by simp only [step, applyOp, h1]⟩
